import Mathlib

/-!
The SDL3 window program of `astar.c`.

`src/astar.c` is one routine, `main`, that talks to the SDL3 library:
initialise, create a window, create a renderer, run the poll / clear / present
loop until a quit event has been seen, tear down.

The embedding is a deterministic step machine.  A program point is named after
the source line of the statement it is about to execute (`Pc.L6` is the
`if (SDL_Init(...) != 0)` of line 6, and so on).  The library is an
environment `Env` that fixes the answer of every call whose result `main`
reads.  Every call is appended, with its arguments, to the `trace` field of the
state, so that properties of runs, finite or not, are properties of the traces
of `main env n` for all `n`.
-/

namespace Astar

/-! ## Data -/

/-- The `SDL_Event` union as far as `main` looks at it: the `type` tag that line 33
reads, and the remaining bytes as an uninterpreted payload. -/
structure SDL_Event where
  type : Nat
  payload : List Nat
deriving DecidableEq

/-- One call made by `main`, with its arguments and, for the calls whose result the
code reads, the value returned.  Pointers are numbers, `0` is `NULL`; the `name`
argument of `SDL_CreateRenderer` is `none` for `NULL`. -/
inductive Call
  | SDL_Init (flags : Nat) (ret : Bool)
  | SDL_CreateWindow (title : String) (w h flags : Nat) (ret : Nat)
  | SDL_CreateRenderer (window : Nat) (name : Option String) (ret : Nat)
  | SDL_GetError (ret : String)
  | printf (out : String)
  | SDL_PollEvent (ret : Option SDL_Event)
  | SDL_SetRenderDrawColor (renderer r g b a : Nat)
  | SDL_RenderClear (renderer : Nat)
  | SDL_RenderPresent (renderer : Nat)
  | SDL_DestroyRenderer (renderer : Nat)
  | SDL_DestroyWindow (window : Nat)
  | SDL_Quit
deriving DecidableEq

/-- The library `main` runs against.

* `sdlInitVideo`, `SDL_EVENT_QUIT`: the values of the header constants
  `SDL_INIT_VIDEO` and `SDL_EVENT_QUIT` (the header is not part of the
  repository, so they are parameters).
* `initResult`: what `SDL_Init` returns.  In SDL3 it is a `bool`, `true` on
  success and `false` on failure.
* `window`, `renderer`: the pointers returned by `SDL_CreateWindow` and
  `SDL_CreateRenderer`; `0` is `NULL`, that is, failure.
* `error`: the string returned by `SDL_GetError`.
* `pending k j`: the answer of the `j`-th call (from 0) of `SDL_PollEvent` made
  during the `k`-th iteration (from 1) of the outer loop; `none` is
  "no event pending" (`SDL_PollEvent` returns `false`).  The pending-event
  queue of frame `k` is `pending k 0, pending k 1, ...` up to the first `none`;
  it is endless when there is no `none`.  Every sequence of answers that
  `SDL_PollEvent` can give to `main` is of this form, since `main` leaves an
  iteration's polling at the first `false`. -/
structure Env where
  sdlInitVideo : Nat
  SDL_EVENT_QUIT : Nat
  initResult : Bool
  window : Nat
  renderer : Nat
  error : String
  pending : Nat → Nat → Option SDL_Event

/-- Program points of `main`, by source line; `done` is "`main` has returned". -/
inductive Pc
  | L6 | L7 | L8
  | L12 | L14 | L15 | L16
  | L20 | L22 | L23 | L24 | L25
  | L30 | L31 | L32
  | L39 | L40 | L41
  | L45 | L46 | L47 | L48
  | done
deriving DecidableEq

/-- The state of `main`: the program point, the locals `window`, `renderer`, `e`
and `quit`, the value returned (once it has returned), and three ghost fields:
`iters`, the number of times the body of the outer loop has been entered,
`polls`, the number of `SDL_PollEvent` calls made in the current iteration, and
`trace`, the calls made so far, oldest first. -/
structure State where
  pc : Pc
  window : Nat
  renderer : Nat
  e : SDL_Event
  quit : Int
  ret : Option Int
  iters : Nat
  polls : Nat
  trace : List Call

/-- Entry of `main`.  Locals that C leaves uninitialised until their declaration
is reached are given the value `0`. -/
def State.init : State :=
  { pc := .L6, window := 0, renderer := 0, e := ⟨0, []⟩, quit := 0, ret := none,
    iters := 0, polls := 0, trace := [] }

/-! ## The program -/

/-- What line 7 prints: `printf("SDL_Init Error: %s\n", SDL_GetError())`. -/
def initErrorLine (env : Env) : String := "SDL_Init Error: " ++ env.error ++ "\n"

/-- What line 14 prints: `printf("SDL_CreateWindow Error: %s\n", SDL_GetError())`. -/
def windowErrorLine (env : Env) : String := "SDL_CreateWindow Error: " ++ env.error ++ "\n"

/-- What line 22 prints: `printf("SDL_CreateRenderer Error: %s\n", SDL_GetError())`. -/
def rendererErrorLine (env : Env) : String := "SDL_CreateRenderer Error: " ++ env.error ++ "\n"

/-- The window title passed on line 12. -/
def windowTitle : String := "Tes SDL3"

/-- One statement of `main` (lines 6 to 48 of `src/astar.c`). -/
def step (env : Env) (s : State) : State :=
  match s.pc with
  -- if (SDL_Init(SDL_INIT_VIDEO) != 0) {
  | .L6 =>
    if env.initResult.toNat ≠ 0 then
      { s with pc := .L7, trace := s.trace ++ [.SDL_Init env.sdlInitVideo env.initResult] }
    else
      { s with pc := .L12, trace := s.trace ++ [.SDL_Init env.sdlInitVideo env.initResult] }
  --     printf("SDL_Init Error: %s\n", SDL_GetError());
  | .L7 =>
    { s with pc := .L8,
             trace := s.trace ++ [.SDL_GetError env.error,
                                  .printf (initErrorLine env)] }
  --     return 1;
  | .L8 => { s with pc := .done, ret := some 1 }
  -- SDL_Window* window = SDL_CreateWindow("Tes SDL3", 800, 600, 0);
  -- if (!window) {
  | .L12 =>
    if env.window = 0 then
      { s with pc := .L14, window := env.window,
               trace := s.trace ++ [.SDL_CreateWindow windowTitle 800 600 0 env.window] }
    else
      { s with pc := .L20, window := env.window,
               trace := s.trace ++ [.SDL_CreateWindow windowTitle 800 600 0 env.window] }
  --     printf("SDL_CreateWindow Error: %s\n", SDL_GetError());
  | .L14 =>
    { s with pc := .L15,
             trace := s.trace ++ [.SDL_GetError env.error,
                                  .printf (windowErrorLine env)] }
  --     SDL_Quit();
  | .L15 => { s with pc := .L16, trace := s.trace ++ [.SDL_Quit] }
  --     return 1;
  | .L16 => { s with pc := .done, ret := some 1 }
  -- SDL_Renderer* renderer = SDL_CreateRenderer(window, NULL);
  -- if (!renderer) {
  | .L20 =>
    if env.renderer = 0 then
      { s with pc := .L22, renderer := env.renderer,
               trace := s.trace ++ [.SDL_CreateRenderer s.window none env.renderer] }
    else
      { s with pc := .L30, renderer := env.renderer,
               trace := s.trace ++ [.SDL_CreateRenderer s.window none env.renderer] }
  --     printf("SDL_CreateRenderer Error: %s\n", SDL_GetError());
  | .L22 =>
    { s with pc := .L23,
             trace := s.trace ++ [.SDL_GetError env.error,
                                  .printf (rendererErrorLine env)] }
  --     SDL_DestroyWindow(window);
  | .L23 => { s with pc := .L24, trace := s.trace ++ [.SDL_DestroyWindow s.window] }
  --     SDL_Quit();
  | .L24 => { s with pc := .L25, trace := s.trace ++ [.SDL_Quit] }
  --     return 1;
  | .L25 => { s with pc := .done, ret := some 1 }
  -- SDL_Event e;  int quit = 0;
  | .L30 => { s with pc := .L31, quit := 0 }
  -- while (!quit) {
  | .L31 =>
    if s.quit = 0 then { s with pc := .L32, iters := s.iters + 1, polls := 0 }
    else { s with pc := .L45 }
  --     while (SDL_PollEvent(&e)) { if (e.type == SDL_EVENT_QUIT) { quit = 1; } }
  | .L32 =>
    match env.pending s.iters s.polls with
    | some ev =>
      { s with pc := .L32, e := ev, polls := s.polls + 1,
               quit := if ev.type = env.SDL_EVENT_QUIT then 1 else s.quit,
               trace := s.trace ++ [.SDL_PollEvent (some ev)] }
    | none =>
      { s with pc := .L39, polls := s.polls + 1,
               trace := s.trace ++ [.SDL_PollEvent none] }
  --     SDL_SetRenderDrawColor(renderer, 0, 0, 0, 255);
  | .L39 =>
    { s with pc := .L40, trace := s.trace ++ [.SDL_SetRenderDrawColor s.renderer 0 0 0 255] }
  --     SDL_RenderClear(renderer);
  | .L40 => { s with pc := .L41, trace := s.trace ++ [.SDL_RenderClear s.renderer] }
  --     SDL_RenderPresent(renderer);  }
  | .L41 => { s with pc := .L31, trace := s.trace ++ [.SDL_RenderPresent s.renderer] }
  -- SDL_DestroyRenderer(renderer);
  | .L45 => { s with pc := .L46, trace := s.trace ++ [.SDL_DestroyRenderer s.renderer] }
  -- SDL_DestroyWindow(window);
  | .L46 => { s with pc := .L47, trace := s.trace ++ [.SDL_DestroyWindow s.window] }
  -- SDL_Quit();
  | .L47 => { s with pc := .L48, trace := s.trace ++ [.SDL_Quit] }
  -- return 0;
  | .L48 => { s with pc := .done, ret := some 0 }
  | .done => s

/-- Run `k` statements from state `s`. -/
def steps (env : Env) : Nat → State → State
  | 0, s => s
  | k + 1, s => steps env k (step env s)

/-- The state of `main` after `n` statements. -/
def main (env : Env) (n : Nat) : State := steps env n State.init

/-! ## Classes of calls -/

/-- A diagnostic line on the console. -/
def Call.isDiagnostic : Call → Bool
  | .printf _ => true
  | _ => false

/-- A call that releases a resource. -/
def Call.isRelease : Call → Bool
  | .SDL_DestroyRenderer _ => true
  | .SDL_DestroyWindow _ => true
  | .SDL_Quit => true
  | _ => false

/-- A call into the SDL library (everything but `printf`). -/
def Call.isSDL : Call → Bool
  | .printf _ => false
  | _ => true

/-- The call `SDL_Quit()`. -/
def Call.isQuit : Call → Bool
  | .SDL_Quit => true
  | _ => false

/-- A call of `SDL_DestroyWindow`. -/
def Call.destroysWindow : Call → Bool
  | .SDL_DestroyWindow _ => true
  | _ => false

/-- A call of `SDL_DestroyRenderer`. -/
def Call.destroysRenderer : Call → Bool
  | .SDL_DestroyRenderer _ => true
  | _ => false

/-- The window handle a call is given, if it takes one. -/
def Call.windowArg : Call → Option Nat
  | .SDL_CreateRenderer w _ _ => some w
  | .SDL_DestroyWindow w => some w
  | _ => none

/-- The renderer handle a call is given, if it takes one. -/
def Call.rendererArg : Call → Option Nat
  | .SDL_SetRenderDrawColor r _ _ _ _ => some r
  | .SDL_RenderClear r => some r
  | .SDL_RenderPresent r => some r
  | .SDL_DestroyRenderer r => some r
  | _ => none

/-- A call made by the body of the outer loop. -/
def Call.inLoop : Call → Bool
  | .SDL_PollEvent _ => true
  | .SDL_SetRenderDrawColor _ _ _ _ _ => true
  | .SDL_RenderClear _ => true
  | .SDL_RenderPresent _ => true
  | _ => false

/-- A call of `SDL_RenderPresent`. -/
def Call.isPresent : Call → Bool
  | .SDL_RenderPresent _ => true
  | _ => false

/-- The calls of the run that leaves through the `return 1` of line 8. -/
def initFailTrace (env : Env) : List Call :=
  [.SDL_Init env.sdlInitVideo true,
   .SDL_GetError env.error,
   .printf (initErrorLine env)]

/-- The calls of the run that leaves through the `return 1` of line 16. -/
def windowFailTrace (env : Env) : List Call :=
  [.SDL_Init env.sdlInitVideo false,
   .SDL_CreateWindow windowTitle 800 600 0 0,
   .SDL_GetError env.error,
   .printf (windowErrorLine env),
   .SDL_Quit]

/-- The calls of the run that leaves through the `return 1` of line 25. -/
def rendererFailTrace (env : Env) : List Call :=
  [.SDL_Init env.sdlInitVideo false,
   .SDL_CreateWindow windowTitle 800 600 0 env.window,
   .SDL_CreateRenderer env.window none 0,
   .SDL_GetError env.error,
   .printf (rendererErrorLine env),
   .SDL_DestroyWindow env.window,
   .SDL_Quit]

/-- The three calls that every run reaching the loop starts with. -/
def setupTrace (env : Env) : List Call :=
  [.SDL_Init env.sdlInitVideo false,
   .SDL_CreateWindow windowTitle 800 600 0 env.window,
   .SDL_CreateRenderer env.window none env.renderer]

/-- The three teardown calls of lines 45 to 47. -/
def teardownCalls (env : Env) : List Call :=
  [.SDL_DestroyRenderer env.renderer, .SDL_DestroyWindow env.window, .SDL_Quit]

/-- The calls of one whole iteration of the outer loop in which the events `evs`
were pending: one successful poll for each event, the poll that reports that none
is pending, then the opaque black draw colour, the clear and the present. -/
def frameCalls (r : Nat) (evs : List SDL_Event) : List Call :=
  evs.map (fun ev => Call.SDL_PollEvent (some ev)) ++
    [.SDL_PollEvent none, .SDL_SetRenderDrawColor r 0 0 0 255, .SDL_RenderClear r,
     .SDL_RenderPresent r]

/-- Whether call `b` may be made at some time after call `a`: nothing that takes a
renderer after `SDL_DestroyRenderer`, nothing that takes a window after
`SDL_DestroyWindow`, no SDL call at all after `SDL_Quit`. -/
def Call.mayFollow (a b : Call) : Bool :=
  match a with
  | .SDL_DestroyRenderer _ => b.rendererArg.isNone
  | .SDL_DestroyWindow _ => b.windowArg.isNone
  | .SDL_Quit => !b.isSDL
  | _ => true

/-- Every handle the call is given is the non-`NULL` handle the library returned. -/
def Call.handlesOk (env : Env) (c : Call) : Bool :=
  (c.windowArg.isNone || (c.windowArg == some env.window && env.window != 0)) &&
  (c.rendererArg.isNone || (c.rendererArg == some env.renderer && env.renderer != 0))

/-- Relation between a call `a` and the call `b` made right after it: a clear comes
right after the call that sets the draw colour of the same renderer to opaque
black. -/
def Call.clearAfterBlack (a b : Call) : Prop :=
  ∀ r, b = .SDL_RenderClear r → a = .SDL_SetRenderDrawColor r 0 0 0 255

/-! ## Event schedules -/

/-- The pending-event queue of frame `k` is finite and holds exactly `evs`: the polls
of iteration `k` return the events of `evs` in order and then report that none is
pending. -/
def QueueIs (env : Env) (k : Nat) (evs : List SDL_Event) : Prop :=
  ∀ j, j ≤ evs.length → env.pending k j = evs[j]?

/-- Some event of `evs` is a quit event. -/
def hasQuit (env : Env) (evs : List SDL_Event) : Bool :=
  evs.any (fun ev => ev.type == env.SDL_EVENT_QUIT)

/-- The queue of frame `k` holds a quit event: some poll of iteration `k`, all polls
before it having returned an event, returns an event of type `SDL_EVENT_QUIT`. -/
def FrameHasQuit (env : Env) (k : Nat) : Prop :=
  ∃ j ev, (∀ i, i < j → env.pending k i ≠ none) ∧ env.pending k j = some ev ∧
    ev.type = env.SDL_EVENT_QUIT

/-- The run reaches the test of the outer loop. -/
def ReachesLoop (env : Env) : Prop := ∃ n, (main env n).pc = .L31

/-! ## Invariants -/

/-- Invariant behind the diagnostics: what has been called, by program point. -/
def DiagInv (env : Env) (s : State) : Prop :=
  match s.pc with
  | .L6 => s.ret = none ∧ s.trace = []
  | .L7 => s.ret = none ∧ s.trace = [.SDL_Init env.sdlInitVideo true]
  | .L8 => s.ret = none ∧ s.trace = initFailTrace env
  | .L12 => s.ret = none ∧ s.trace = [.SDL_Init env.sdlInitVideo false]
  | .L14 => s.ret = none ∧ s.trace = (windowFailTrace env).take 2
  | .L15 => s.ret = none ∧ s.trace = (windowFailTrace env).take 4
  | .L16 => s.ret = none ∧ s.trace = windowFailTrace env
  | .L20 => s.ret = none ∧ s.window = env.window ∧ s.trace = (rendererFailTrace env).take 2
  | .L22 => s.ret = none ∧ s.window = env.window ∧ s.trace = (rendererFailTrace env).take 3
  | .L23 => s.ret = none ∧ s.window = env.window ∧ s.trace = (rendererFailTrace env).take 5
  | .L24 => s.ret = none ∧ s.trace = (rendererFailTrace env).take 6
  | .L25 => s.ret = none ∧ s.trace = rendererFailTrace env
  | .done =>
    (s.ret = some 0 ∧ s.trace.all (fun c => !c.isDiagnostic) = true) ∨
    (s.ret = some 1 ∧ (s.trace = initFailTrace env ∨ s.trace = windowFailTrace env ∨
      s.trace = rendererFailTrace env))
  | _ => s.ret = none ∧ s.trace.all (fun c => !c.isDiagnostic) = true

/-- Invariant behind handle safety. -/
def SafeInv (env : Env) (s : State) : Prop :=
  (s.trace.all (Call.handlesOk env) = true ∧ s.trace.Pairwise (fun a b => a.mayFollow b = true)) ∧
  match s.pc with
  | .L6 | .L7 | .L8 | .L12 | .L14 | .L15 => s.trace.any Call.isRelease = false
  | .L20 | .L22 | .L23 =>
    s.trace.any Call.isRelease = false ∧ s.window = env.window ∧ env.window ≠ 0
  | .L24 => s.trace.any Call.isQuit = false
  | .L30 | .L31 | .L32 | .L39 | .L40 | .L41 | .L45 =>
    s.trace.any Call.isRelease = false ∧ s.window = env.window ∧ env.window ≠ 0 ∧
    s.renderer = env.renderer ∧ env.renderer ≠ 0
  | .L46 =>
    (s.trace.any Call.isQuit = false ∧ s.trace.any Call.destroysWindow = false) ∧
    s.window = env.window ∧ env.window ≠ 0
  | .L47 => s.trace.any Call.isQuit = false
  | .L16 | .L25 | .L48 | .done => True

/-- Invariant behind the shape of the loop's calls. -/
def ShapeInv (env : Env) (s : State) : Prop :=
  match s.pc with
  | .L32 =>
    s.renderer = env.renderer ∧
    ∃ (frames : List (List SDL_Event)) (evs : List SDL_Event), frames.length + 1 = s.iters ∧
      s.trace.filter Call.inLoop = frames.flatMap (frameCalls env.renderer) ++
        evs.map (fun ev => Call.SDL_PollEvent (some ev))
  | .L39 =>
    s.renderer = env.renderer ∧
    ∃ (frames : List (List SDL_Event)) (evs : List SDL_Event), frames.length + 1 = s.iters ∧
      s.trace.filter Call.inLoop = frames.flatMap (frameCalls env.renderer) ++
        (evs.map (fun ev => Call.SDL_PollEvent (some ev)) ++ [.SDL_PollEvent none])
  | .L40 =>
    s.renderer = env.renderer ∧
    ∃ (frames : List (List SDL_Event)) (evs : List SDL_Event), frames.length + 1 = s.iters ∧
      s.trace.filter Call.inLoop = frames.flatMap (frameCalls env.renderer) ++
        (evs.map (fun ev => Call.SDL_PollEvent (some ev)) ++
          [.SDL_PollEvent none, .SDL_SetRenderDrawColor env.renderer 0 0 0 255])
  | .L41 =>
    s.renderer = env.renderer ∧
    ∃ (frames : List (List SDL_Event)) (evs : List SDL_Event), frames.length + 1 = s.iters ∧
      s.trace.filter Call.inLoop = frames.flatMap (frameCalls env.renderer) ++
        (evs.map (fun ev => Call.SDL_PollEvent (some ev)) ++
          [.SDL_PollEvent none, .SDL_SetRenderDrawColor env.renderer 0 0 0 255,
           .SDL_RenderClear env.renderer])
  | .L30 | .L31 | .L45 =>
    s.renderer = env.renderer ∧
    ∃ frames : List (List SDL_Event), frames.length = s.iters ∧
      s.trace.filter Call.inLoop = frames.flatMap (frameCalls env.renderer)
  | .L46 | .L47 | .L48 | .done =>
    ∃ frames : List (List SDL_Event), frames.length = s.iters ∧
      s.trace.filter Call.inLoop = frames.flatMap (frameCalls env.renderer)
  | _ => s.iters = 0 ∧ s.trace.filter Call.inLoop = []

/-- Invariant behind "every clear is done with the black draw colour". -/
def ClearInv (s : State) : Prop :=
  s.trace.Chain' Call.clearAfterBlack ∧
  (∀ r, s.trace.head? ≠ some (.SDL_RenderClear r)) ∧
  match s.pc with
  | .L40 => s.trace.getLast? = some (.SDL_SetRenderDrawColor s.renderer 0 0 0 255)
  | _ => True

/-- Invariant behind "as many presents as iterations". -/
def CountInv (s : State) : Prop :=
  match s.pc with
  | .L32 | .L39 | .L40 | .L41 => s.trace.countP Call.isPresent + 1 = s.iters
  | _ => s.trace.countP Call.isPresent = s.iters

/-- Invariant: which results of the initialisation calls lead to which point. -/
def ReachInv (env : Env) (s : State) : Prop :=
  match s.pc with
  | .L6 | .done => True
  | .L7 | .L8 => env.initResult = true
  | .L12 => env.initResult = false
  | .L14 | .L15 | .L16 => env.initResult = false ∧ env.window = 0
  | .L20 => env.initResult = false ∧ env.window ≠ 0
  | .L22 | .L23 | .L24 | .L25 => env.initResult = false ∧ env.window ≠ 0 ∧ env.renderer = 0
  | _ => env.initResult = false ∧ env.window ≠ 0 ∧ env.renderer ≠ 0

/-- An event whose type is the quit tag of `sampleEnv`. -/
def quitEvent : SDL_Event := ⟨256, []⟩

/-- A key-down-like event (any type other than the quit tag). -/
def otherEvent : SDL_Event := ⟨768, [4]⟩

/-- A library in which the quit event is the first event of the first frame and
nothing else is ever pending; the three initialisation results are
parameters. -/
def sampleEnv (initResult : Bool) (window renderer : Nat) : Env :=
  { sdlInitVideo := 32, SDL_EVENT_QUIT := 256, initResult := initResult,
    window := window, renderer := renderer, error := "boom",
    pending := fun k j => if k = 1 ∧ j = 0 then some quitEvent else none }

/-- A library that never has an event pending. -/
def quietEnv (initResult : Bool) (window renderer : Nat) : Env :=
  { sdlInitVideo := 32, SDL_EVENT_QUIT := 256, initResult := initResult,
    window := window, renderer := renderer, error := "boom",
    pending := fun _ _ => none }

/-- A library in which the loop is reached and `SDL_PollEvent` always has another
quit event to deliver: the queue of the first frame is endless. -/
def endlessQuitEnv : Env :=
  { sdlInitVideo := 32, SDL_EVENT_QUIT := 256, initResult := false,
    window := 1, renderer := 2, error := "boom",
    pending := fun _ _ => some quitEvent }

/-- A library in which the loop is reached, the first frame holds one other event,
and the second frame holds a quit event followed by another event. -/
def drainEnv : Env :=
  { sdlInitVideo := 32, SDL_EVENT_QUIT := 256, initResult := false,
    window := 1, renderer := 2, error := "boom",
    pending := fun k j =>
      if k = 1 then (if j = 0 then some otherEvent else none)
      else if k = 2 then
        (if j = 0 then some quitEvent else if j = 1 then some otherEvent else none)
      else none }

theorem steps_succ (env : Env) (k : Nat) (s : State) :
    steps env (k + 1) s = step env (steps env k s) := by
  induction k generalizing s with
  | zero => rfl
  | succ k ih => exact ih (step env s)

theorem steps_add (env : Env) (a b : Nat) (s : State) :
    steps env (a + b) s = steps env b (steps env a s) := by
  induction b with
  | zero => rfl
  | succ b ih => rw [← Nat.add_assoc, steps_succ, steps_succ, ih]

theorem main_succ (env : Env) (n : Nat) : main env (n + 1) = step env (main env n) :=
  steps_succ env n State.init

theorem main_add (env : Env) (a b : Nat) : main env (a + b) = steps env b (main env a) :=
  steps_add env a b State.init

/-- Induction over the statements executed: a property of the entry state that every
statement preserves holds at every point of every run. -/
theorem main_induction (env : Env) (P : State → Prop) (h0 : P State.init)
    (hstep : ∀ s, P s → P (step env s)) : ∀ n, P (main env n) := by
  intro n
  induction n with
  | zero => exact h0
  | succ n ih => rw [main_succ]; exact hstep _ ih

theorem step_done (env : Env) (s : State) (h : s.pc = .done) : step env s = s := by
  simp [step, h]

theorem steps_done (env : Env) (k : Nat) (s : State) (h : s.pc = .done) :
    steps env k s = s := by
  induction k with
  | zero => rfl
  | succ k ih => rw [steps_succ, ih, step_done env s h]

/-- Once `main` has returned, the state no longer changes. -/
theorem main_done_stable (env : Env) (a n : Nat) (h : (main env a).pc = .done) (hn : a ≤ n) :
    main env n = main env a := by
  obtain ⟨k, rfl⟩ := Nat.exists_eq_add_of_le hn
  rw [main_add, steps_done env k _ h]

/-! ## Diagnostics and exit status -/

theorem diagInv_step (env : Env) (s : State) (h : DiagInv env s) : DiagInv env (step env s) := by
  rcases s with ⟨pc, w, r, e, q, ret, it, po, tr⟩
  cases pc <;> simp only [DiagInv, step] at h ⊢
  case L32 => cases hp : env.pending it po <;> simp_all [DiagInv, Call.isDiagnostic]
  all_goals (try split_ifs) <;>
    simp_all [DiagInv, initFailTrace, windowFailTrace, rendererFailTrace, Call.isDiagnostic]

theorem diagInv_main (env : Env) (n : Nat) : DiagInv env (main env n) :=
  main_induction env (DiagInv env) (by simp [DiagInv, State.init]) (diagInv_step env) n

theorem ret_some_done (env : Env) (n : Nat) (c : Int) (h : (main env n).ret = some c) :
    (main env n).pc = .done := by
  have hinv := diagInv_main env n
  revert h hinv
  generalize main env n = s
  rcases s with ⟨pc, w, r, e, q, ret, it, po, tr⟩
  cases pc <;> simp [DiagInv] <;> intro h <;> simp [h]

/-- The text of the three diagnostic lines, as in the `printf` calls of lines 7, 14
and 22. -/
theorem errorLine_text (env : Env) :
    initErrorLine env = "SDL_Init Error: " ++ env.error ++ "\n" ∧
    windowErrorLine env = "SDL_CreateWindow Error: " ++ env.error ++ "\n" ∧
    rendererErrorLine env = "SDL_CreateRenderer Error: " ++ env.error ++ "\n" :=
  ⟨rfl, rfl, rfl⟩

/-- Diagnostics along the branches of the code.  A run that returns a non-zero status
has printed exactly one line, before any release call, and its calls are those of
one of the three `return 1` paths; a run that returns 0 has printed none.  The
three `return 1` paths are taken under the conditions the code tests:
`SDL_Init(...) != 0`, which is `SDL_Init` returning `true`, then `!window`, then
`!renderer`. -/
theorem diagnostic_iff_nonzero_status (env : Env) :
    (∀ n c, (main env n).ret = some c →
      (c ≠ 0 ↔ ∃ msg, Call.printf msg ∈ (main env n).trace)) ∧
    (∀ n, (main env n).ret = some 0 → ∀ x ∈ (main env n).trace, x.isDiagnostic = false) ∧
    (∀ n c, (main env n).ret = some c → c ≠ 0 →
      c = 1 ∧
      ((main env n).trace = initFailTrace env ∨ (main env n).trace = windowFailTrace env ∨
        (main env n).trace = rendererFailTrace env) ∧
      ((main env n).trace.filter Call.isDiagnostic).length = 1 ∧
      ∀ x ∈ (main env n).trace.takeWhile (fun c => !c.isDiagnostic), x.isRelease = false) ∧
    (env.initResult = true →
      (main env 3).ret = some 1 ∧ (main env 3).trace = initFailTrace env) ∧
    (env.initResult = false → env.window = 0 →
      (main env 5).ret = some 1 ∧ (main env 5).trace = windowFailTrace env) ∧
    (env.initResult = false → env.window ≠ 0 → env.renderer = 0 →
      (main env 7).ret = some 1 ∧ (main env 7).trace = rendererFailTrace env) := by
  have key : ∀ n c, (main env n).ret = some c →
      (c = 0 ∧ (main env n).trace.all (fun c => !c.isDiagnostic) = true) ∨
      (c = 1 ∧ ((main env n).trace = initFailTrace env ∨
        (main env n).trace = windowFailTrace env ∨
        (main env n).trace = rendererFailTrace env)) := by
    intro n c h
    have hd := ret_some_done env n c h
    have hinv := diagInv_main env n
    revert h hd hinv
    generalize main env n = s
    rcases s with ⟨pc, w, r, e, q, ret, it, po, tr⟩
    intro h hd
    simp only at hd h
    subst hd
    subst h
    simp only [DiagInv]
    rintro (⟨h1, h2⟩ | ⟨h1, h2⟩)
    · left; exact ⟨by simpa using h1, h2⟩
    · right; exact ⟨by simpa using h1, h2⟩
  refine ⟨?_, ?_, ?_, ?_, ?_, ?_⟩
  · intro n c h
    rcases key n c h with ⟨rfl, h0⟩ | ⟨rfl, h1 | h1 | h1⟩
    · simp only [ne_eq, not_true_eq_false, false_iff, not_exists]
      intro msg hm
      have := List.all_eq_true.mp h0 _ hm
      simp [Call.isDiagnostic] at this
    · simp [h1, initFailTrace]
    · simp [h1, windowFailTrace]
    · simp [h1, rendererFailTrace]
  · intro n h x hx
    rcases key n 0 h with ⟨-, h0⟩ | ⟨h1, -⟩
    · simpa using List.all_eq_true.mp h0 _ hx
    · simp at h1
  · intro n c h hc
    rcases key n c h with ⟨rfl, -⟩ | ⟨rfl, h1⟩
    · exact absurd rfl hc
    · refine ⟨rfl, h1, ?_, ?_⟩
      · rcases h1 with h1 | h1 | h1 <;>
          simp [h1, initFailTrace, windowFailTrace, rendererFailTrace, Call.isDiagnostic,
            List.filter]
      · rcases h1 with h1 | h1 | h1 <;>
          simp [h1, initFailTrace, windowFailTrace, rendererFailTrace, Call.isDiagnostic,
            Call.isRelease, List.takeWhile]
  · intro h
    simp [main, steps, step, State.init, h, initFailTrace]
  · intro h hw
    simp [main, steps, step, State.init, h, hw, windowFailTrace]
  · intro h hw hr
    simp [main, steps, step, State.init, h, hw, hr, rendererFailTrace]

/-! ## Handle safety -/

theorem mayFollow_of_not_release (tr : List Call) (b : Call)
    (h : tr.any Call.isRelease = false) : ∀ a ∈ tr, a.mayFollow b = true := by
  intro a ha
  have := List.any_eq_false.mp h a ha
  cases a <;> simp_all [Call.isRelease, Call.mayFollow]

theorem mayFollow_quit (tr : List Call)
    (h : tr.any Call.isQuit = false) : ∀ a ∈ tr, a.mayFollow .SDL_Quit = true := by
  intro a ha
  have := List.any_eq_false.mp h a ha
  cases a <;> simp_all [Call.isQuit, Call.mayFollow, Call.rendererArg, Call.windowArg]

theorem mayFollow_destroyWindow (tr : List Call) (w : Nat)
    (h : tr.any Call.isQuit = false) (h2 : tr.any Call.destroysWindow = false) :
    ∀ a ∈ tr, a.mayFollow (.SDL_DestroyWindow w) = true := by
  intro a ha
  have := List.any_eq_false.mp h a ha
  have := List.any_eq_false.mp h2 a ha
  cases a <;> simp_all [Call.isQuit, Call.destroysWindow, Call.mayFollow, Call.rendererArg]

theorem any_weaken {p q : Call → Bool} (tr : List Call) (hpq : ∀ c, q c = true → p c = true)
    (h : tr.any p = false) : tr.any q = false := by
  rw [List.any_eq_false] at h ⊢
  exact fun c hc hq => h c hc (hpq c hq)

theorem no_quit_of_no_release (tr : List Call) (h : tr.any Call.isRelease = false) :
    tr.any Call.isQuit = false :=
  any_weaken tr (by intro c; cases c <;> simp [Call.isRelease, Call.isQuit]) h

theorem no_destroyWindow_of_no_release (tr : List Call) (h : tr.any Call.isRelease = false) :
    tr.any Call.destroysWindow = false :=
  any_weaken tr (by intro c; cases c <;> simp [Call.isRelease, Call.destroysWindow]) h

theorem safeInv_step (env : Env) (s : State) (h : SafeInv env s) : SafeInv env (step env s) := by
  rcases s with ⟨pc, w, r, e, q, ret, it, po, tr⟩
  have hA := mayFollow_of_not_release tr
  have hB := mayFollow_quit tr
  have hC := mayFollow_destroyWindow tr
  have hW₁ := no_quit_of_no_release tr
  have hW₂ := no_destroyWindow_of_no_release tr
  cases pc <;> simp only [SafeInv, step] at h ⊢
  case L32 =>
    cases hp : env.pending it po <;>
      simp only [List.all_append, List.any_append, List.all_cons, List.any_cons, List.all_nil,
        List.any_nil, List.pairwise_append, List.pairwise_cons, List.mem_singleton, forall_eq,
        Call.handlesOk, Call.isRelease, Call.windowArg, Call.rendererArg, Call.isQuit,
        Call.destroysWindow] <;>
      simp_all
  all_goals (try split_ifs) <;>
    (try simp only [List.all_append, List.any_append, List.all_cons, List.any_cons, List.all_nil,
        List.any_nil, List.pairwise_append, List.pairwise_cons, List.mem_singleton, forall_eq,
        Call.handlesOk, Call.isRelease, Call.windowArg, Call.rendererArg, Call.isQuit,
        Call.destroysWindow]) <;>
    simp_all <;> rfl

theorem safeInv_main (env : Env) (n : Nat) : SafeInv env (main env n) :=
  main_induction env (SafeInv env) (by simp [SafeInv, State.init]) (safeInv_step env) n

theorem countP_le_one_of_pairwise (p : Call → Bool) (R : Call → Call → Prop) (tr : List Call)
    (hR : tr.Pairwise R) (hp : ∀ a b, p a = true → p b = true → ¬ R a b) :
    tr.countP p ≤ 1 := by
  induction tr with
  | nil => simp
  | cons a l ih =>
    rw [List.pairwise_cons] at hR
    rw [List.countP_cons]
    by_cases ha : p a = true
    · have hz : l.countP p = 0 := by
        rw [List.countP_eq_zero]
        intro b hb hpb
        exact hp a b ha hpb (hR.1 b hb)
      simp [ha, hz]
    · have := ih hR.2
      simp [ha, this]

/-- C5. At every point of every run: each call that is given a window or a renderer
is given the non-`NULL` handle the library returned; each handle is destroyed at
most once; and for any two calls `a` before `b`, `b` takes no renderer if `a` is
`SDL_DestroyRenderer`, takes no window if `a` is `SDL_DestroyWindow`, and is not
an SDL call if `a` is `SDL_Quit`. -/
theorem handles_used_safely (env : Env) (n : Nat) :
    (∀ c ∈ (main env n).trace,
      (∀ w, c.windowArg = some w → w = env.window ∧ w ≠ 0) ∧
      (∀ r, c.rendererArg = some r → r = env.renderer ∧ r ≠ 0)) ∧
    (main env n).trace.countP Call.destroysWindow ≤ 1 ∧
    (main env n).trace.countP Call.destroysRenderer ≤ 1 ∧
    (main env n).trace.Pairwise (fun a b => a.mayFollow b = true) := by
  obtain ⟨⟨h1, h2⟩, -⟩ := safeInv_main env n
  refine ⟨?_, ?_, ?_, h2⟩
  · intro c hc
    have := List.all_eq_true.mp h1 c hc
    simp only [Call.handlesOk, Bool.and_eq_true, Bool.or_eq_true, Option.isNone_iff_eq_none,
      beq_iff_eq, bne_iff_ne, ne_eq] at this
    constructor
    · intro w hw
      rcases this.1 with h | ⟨h, h0⟩
      · simp [h] at hw
      · rw [h] at hw; cases hw; exact ⟨rfl, h0⟩
    · intro r hr
      rcases this.2 with h | ⟨h, h0⟩
      · simp [h] at hr
      · rw [h] at hr; cases hr; exact ⟨rfl, h0⟩
  · refine countP_le_one_of_pairwise _ _ _ h2 ?_
    intro a b ha hb
    cases a <;> simp [Call.destroysWindow] at ha
    cases b <;> simp [Call.destroysWindow] at hb
    simp [Call.mayFollow, Call.windowArg]
  · refine countP_le_one_of_pairwise _ _ _ h2 ?_
    intro a b ha hb
    cases a <;> simp [Call.destroysRenderer] at ha
    cases b <;> simp [Call.destroysRenderer] at hb
    simp [Call.mayFollow, Call.rendererArg]

/-! ## The body of the loop -/

theorem countInv_step (env : Env) (s : State) (h : CountInv s) : CountInv (step env s) := by
  rcases s with ⟨pc, w, r, e, q, ret, it, po, tr⟩
  cases pc <;> simp only [CountInv, step] at h ⊢
  case L32 =>
    cases hp : env.pending it po <;>
      simp_all [CountInv, List.countP_append, List.countP_cons, Call.isPresent]
  all_goals (try split_ifs) <;>
    simp_all [CountInv, List.countP_append, List.countP_cons, Call.isPresent]

theorem countInv_main (env : Env) (n : Nat) : CountInv (main env n) :=
  main_induction env CountInv (by simp [CountInv, State.init]) (countInv_step env) n

theorem clearInv_step (env : Env) (s : State) (h : ClearInv s) : ClearInv (step env s) := by
  rcases s with ⟨pc, w, r, e, q, ret, it, po, tr⟩
  cases pc <;> simp only [ClearInv, step] at h ⊢
  case L32 =>
    cases hp : env.pending it po <;> cases hh : tr.head? <;>
      simp_all [ClearInv, List.chain'_append, Call.clearAfterBlack]
  all_goals (try split_ifs) <;> cases hh : tr.head? <;>
      simp_all [ClearInv, List.chain'_append, Call.clearAfterBlack]

theorem clearInv_main (env : Env) (n : Nat) : ClearInv (main env n) :=
  main_induction env ClearInv (by simp [ClearInv, State.init]) (clearInv_step env) n

theorem shapeInv_step (env : Env) (s : State) (h : ShapeInv env s) :
    ShapeInv env (step env s) := by
  rcases s with ⟨pc, w, r, e, q, ret, it, po, tr⟩
  cases pc <;> simp only [ShapeInv, step] at h ⊢
  case L20 =>
    split_ifs <;> simp_all [ShapeInv, List.filter_append, Call.inLoop]
  case L31 =>
    obtain ⟨hr, frames, hlen, htr⟩ := h
    split_ifs
    · exact ⟨hr, frames, [], by simp [hlen], by simp [htr]⟩
    · exact ⟨hr, frames, hlen, htr⟩
  case L32 =>
    obtain ⟨hr, frames, evs, hlen, htr⟩ := h
    cases hp : env.pending it po with
    | none =>
      exact ⟨hr, frames, evs, hlen, by simp [List.filter_append, htr, Call.inLoop]⟩
    | some ev =>
      exact ⟨hr, frames, evs ++ [ev], hlen, by simp [List.filter_append, htr, Call.inLoop]⟩
  case L39 =>
    obtain ⟨hr, frames, evs, hlen, htr⟩ := h
    exact ⟨hr, frames, evs, hlen, by simp [List.filter_append, htr, Call.inLoop, hr]⟩
  case L40 =>
    obtain ⟨hr, frames, evs, hlen, htr⟩ := h
    exact ⟨hr, frames, evs, hlen, by simp [List.filter_append, htr, Call.inLoop, hr]⟩
  case L41 =>
    obtain ⟨hr, frames, evs, hlen, htr⟩ := h
    exact ⟨hr, frames ++ [evs], by simp [hlen],
      by simp [List.filter_append, htr, Call.inLoop, hr, List.flatMap_append, frameCalls]⟩
  case L45 =>
    obtain ⟨hr, frames, hlen, htr⟩ := h
    exact ⟨frames, hlen, by simp [List.filter_append, htr, Call.inLoop]⟩
  case L46 =>
    obtain ⟨frames, hlen, htr⟩ := h
    exact ⟨frames, hlen, by simp [List.filter_append, htr, Call.inLoop]⟩
  case L47 =>
    obtain ⟨frames, hlen, htr⟩ := h
    exact ⟨frames, hlen, by simp [List.filter_append, htr, Call.inLoop]⟩
  case L8 => exact ⟨[], by simp [h.1], by simp [h.2]⟩
  case L16 => exact ⟨[], by simp [h.1], by simp [h.2]⟩
  case L25 => exact ⟨[], by simp [h.1], by simp [h.2]⟩
  all_goals (try split_ifs) <;> simp_all [ShapeInv, List.filter_append, Call.inLoop]

theorem shapeInv_main (env : Env) (n : Nat) : ShapeInv env (main env n) :=
  main_induction env (ShapeInv env) (by simp [ShapeInv, State.init]) (shapeInv_step env) n

/-- The calls of the loop, at every point of every run: shape, colour of the clears,
number of presents. -/
theorem loop_body_shape (env : Env) (n : Nat) :
    (∃ frames : List (List SDL_Event), frames.length = (main env n).iters ∧
      (main env n).trace.filter Call.inLoop <+: frames.flatMap (frameCalls env.renderer)) ∧
    ((main env n).pc ∉ [Pc.L32, Pc.L39, Pc.L40, Pc.L41] →
      ∃ frames : List (List SDL_Event), frames.length = (main env n).iters ∧
        (main env n).trace.filter Call.inLoop = frames.flatMap (frameCalls env.renderer)) ∧
    (∀ pre r post, (main env n).trace = pre ++ Call.SDL_RenderClear r :: post →
      ∃ pre', pre = pre' ++ [Call.SDL_SetRenderDrawColor r 0 0 0 255]) ∧
    ((main env n).pc ∉ [Pc.L32, Pc.L39, Pc.L40, Pc.L41] →
      (main env n).trace.countP Call.isPresent = (main env n).iters) ∧
    ((main env n).pc ∈ [Pc.L32, Pc.L39, Pc.L40, Pc.L41] →
      (main env n).trace.countP Call.isPresent + 1 = (main env n).iters) := by
  have hshape := shapeInv_main env n
  have hclear := clearInv_main env n
  have hcount := countInv_main env n
  revert hshape hclear hcount
  generalize main env n = s
  rcases s with ⟨pc, w, r, e, q, ret, it, po, tr⟩
  intro hshape hclear hcount
  refine ⟨?_, ?_, ?_, ?_, ?_⟩
  · cases pc <;> simp only [ShapeInv] at hshape
    case L32 =>
      obtain ⟨-, frames, evs, hlen, htr⟩ := hshape
      exact ⟨frames ++ [evs], by simp [hlen],
        [.SDL_PollEvent none, .SDL_SetRenderDrawColor env.renderer 0 0 0 255,
        .SDL_RenderClear env.renderer, .SDL_RenderPresent env.renderer],
        by simp [htr, List.flatMap_append, frameCalls]⟩
    case L39 =>
      obtain ⟨-, frames, evs, hlen, htr⟩ := hshape
      exact ⟨frames ++ [evs], by simp [hlen],
        [.SDL_SetRenderDrawColor env.renderer 0 0 0 255,
        .SDL_RenderClear env.renderer, .SDL_RenderPresent env.renderer],
        by simp [htr, List.flatMap_append, frameCalls]⟩
    case L40 =>
      obtain ⟨-, frames, evs, hlen, htr⟩ := hshape
      exact ⟨frames ++ [evs], by simp [hlen],
        [.SDL_RenderClear env.renderer, .SDL_RenderPresent env.renderer],
        by simp [htr, List.flatMap_append, frameCalls]⟩
    case L41 =>
      obtain ⟨-, frames, evs, hlen, htr⟩ := hshape
      exact ⟨frames ++ [evs], by simp [hlen],
        [.SDL_RenderPresent env.renderer],
        by simp [htr, List.flatMap_append, frameCalls]⟩
    case L30 => obtain ⟨-, frames, hlen, htr⟩ := hshape; exact ⟨frames, hlen, by simp [htr]⟩
    case L31 => obtain ⟨-, frames, hlen, htr⟩ := hshape; exact ⟨frames, hlen, by simp [htr]⟩
    case L45 => obtain ⟨-, frames, hlen, htr⟩ := hshape; exact ⟨frames, hlen, by simp [htr]⟩
    case L46 => obtain ⟨frames, hlen, htr⟩ := hshape; exact ⟨frames, hlen, by simp [htr]⟩
    case L47 => obtain ⟨frames, hlen, htr⟩ := hshape; exact ⟨frames, hlen, by simp [htr]⟩
    case L48 => obtain ⟨frames, hlen, htr⟩ := hshape; exact ⟨frames, hlen, by simp [htr]⟩
    case done => obtain ⟨frames, hlen, htr⟩ := hshape; exact ⟨frames, hlen, by simp [htr]⟩
    all_goals exact ⟨[], by simp [hshape.1], by simp [hshape.2]⟩
  · intro hpc
    cases pc <;> simp only [ShapeInv] at hshape <;> simp at hpc
    case L30 => obtain ⟨-, frames, hlen, htr⟩ := hshape; exact ⟨frames, hlen, htr⟩
    case L31 => obtain ⟨-, frames, hlen, htr⟩ := hshape; exact ⟨frames, hlen, htr⟩
    case L45 => obtain ⟨-, frames, hlen, htr⟩ := hshape; exact ⟨frames, hlen, htr⟩
    case L46 => exact hshape
    case L47 => exact hshape
    case L48 => exact hshape
    case done => exact hshape
    all_goals exact ⟨[], by simp [hshape.1], by simp [hshape.2]⟩
  · intro pre r' post htr
    simp only at htr
    obtain ⟨hchain, hhead, -⟩ := hclear
    simp only at hchain hhead
    rw [htr] at hchain hhead
    have hne : pre ≠ [] := by
      rintro rfl
      exact hhead r' (by simp)
    rw [List.chain'_append] at hchain
    have hlast := hchain.2.2 (pre.getLast hne) (by simp [List.getLast?_eq_getLast _ hne])
      (Call.SDL_RenderClear r') (by simp) r' rfl
    exact ⟨pre.dropLast, by rw [← hlast, List.dropLast_append_getLast hne]⟩
  · intro hpc
    cases pc <;> simp only [CountInv] at hcount <;> simp at hpc <;> exact hcount
  · intro hpc
    cases pc <;> simp only [CountInv] at hcount <;> simp at hpc <;> exact hcount

/-! ## Running the loop -/

theorem reachInv_step (env : Env) (s : State) (h : ReachInv env s) :
    ReachInv env (step env s) := by
  rcases s with ⟨pc, w, r, e, q, ret, it, po, tr⟩
  cases pc <;> simp only [ReachInv, step] at h ⊢
  case L32 => cases hp : env.pending it po <;> simp_all [ReachInv]
  all_goals (try split_ifs) <;> simp_all [ReachInv]

theorem reachInv_main (env : Env) (n : Nat) : ReachInv env (main env n) :=
  main_induction env (ReachInv env) (by simp [ReachInv, State.init]) (reachInv_step env) n

/-- The state in which the loop is entered, after the four statements of lines 6 to 30. -/
theorem main_at_loop (env : Env) (hi : env.initResult = false) (hw : env.window ≠ 0)
    (hr : env.renderer ≠ 0) :
    main env 4 = { pc := .L31, window := env.window, renderer := env.renderer, e := ⟨0, []⟩,
                   quit := 0, ret := none, iters := 0, polls := 0, trace := setupTrace env } := by
  simp [main, steps, step, State.init, hi, hw, hr, setupTrace]

/-- The loop is reached exactly when `SDL_Init` returns `false` and the two creation
calls return a non-`NULL` pointer. -/
theorem reachesLoop_iff (env : Env) :
    ReachesLoop env ↔ env.initResult = false ∧ env.window ≠ 0 ∧ env.renderer ≠ 0 := by
  constructor
  · rintro ⟨n, hn⟩
    have := reachInv_main env n
    revert this hn
    generalize main env n = s
    rcases s with ⟨pc, w, r, e, q, ret, it, po, tr⟩
    rintro rfl h
    exact h
  · rintro ⟨hi, hw, hr⟩
    exact ⟨4, by rw [main_at_loop env hi hw hr]⟩

/-- The inner loop: from line 32, with the events `rest` still pending, the polls
return them one by one, then report that none is pending, and control reaches
line 39; `quit` has become 1 if one of them is a quit event. -/
theorem poll_loop (env : Env) (rest : List SDL_Event) :
    ∀ s : State, s.pc = .L32 →
      (∀ i, i ≤ rest.length → env.pending s.iters (s.polls + i) = rest[i]?) →
      steps env (rest.length + 1) s =
        { s with pc := .L39, polls := s.polls + rest.length + 1,
                 e := rest.getLast?.getD s.e,
                 quit := if hasQuit env rest = true then 1 else s.quit,
                 trace := s.trace ++ rest.map (fun ev => Call.SDL_PollEvent (some ev)) ++
                   [.SDL_PollEvent none] } := by
  induction rest with
  | nil =>
    intro s hpc hq
    have h0 := hq 0 (le_refl _)
    simp only [Nat.add_zero, List.length_nil, List.getElem?_nil] at h0
    rcases s with ⟨pc, w, r, e, q, ret, it, po, tr⟩
    simp only at hpc h0
    subst hpc
    simp [steps, step, h0, hasQuit]
  | cons ev rest ih =>
    intro s hpc hq
    have h0 := hq 0 (Nat.zero_le _)
    simp only [Nat.add_zero, List.getElem?_cons_zero] at h0
    rcases s with ⟨pc, w, r, e, q, ret, it, po, tr⟩
    simp only at hpc h0
    subst hpc
    have hstep : step env ⟨.L32, w, r, e, q, ret, it, po, tr⟩ =
        ⟨.L32, w, r, ev, if ev.type = env.SDL_EVENT_QUIT then 1 else q, ret, it, po + 1,
          tr ++ [.SDL_PollEvent (some ev)]⟩ := by
      simp [step, h0]
    rw [List.length_cons, steps, hstep, ih _ rfl]
    · have he : rest.getLast?.getD ev = (ev :: rest).getLast?.getD e := by
        cases rest with
        | nil => simp
        | cons a l => simp [List.getLast?_cons_cons, List.getLast?_eq_getLast]
      by_cases hev : ev.type = env.SDL_EVENT_QUIT <;>
        simp [hasQuit, hev, Nat.add_assoc, Nat.add_comm 1, he]
    · intro i hi
      have := hq (i + 1) (by simpa using hi)
      simpa [Nat.add_assoc, Nat.add_comm 1] using this

/-- One whole iteration: from the loop test with `quit == 0`, when the queue of the
next frame is the finite list `evs`, the iteration polls all of `evs`, renders once
and is back at the loop test after `evs.length + 5` statements. -/
theorem frame_run (env : Env) (evs : List SDL_Event) (s : State) (hpc : s.pc = .L31)
    (hquit : s.quit = 0) (hqueue : QueueIs env (s.iters + 1) evs) :
    steps env (evs.length + 5) s =
      { s with pc := .L31, iters := s.iters + 1, polls := evs.length + 1,
               e := evs.getLast?.getD s.e,
               quit := if hasQuit env evs = true then 1 else 0,
               trace := s.trace ++ frameCalls s.renderer evs } := by
  rcases s with ⟨pc, w, r, e, q, ret, it, po, tr⟩
  simp only at hpc hquit hqueue
  subst hpc hquit
  have h1 : step env ⟨.L31, w, r, e, 0, ret, it, po, tr⟩ =
      ⟨.L32, w, r, e, 0, ret, it + 1, 0, tr⟩ := by simp [step]
  have h2 := poll_loop env evs ⟨.L32, w, r, e, 0, ret, it + 1, 0, tr⟩ rfl
    (by intro i hi; simpa using hqueue i hi)
  have e5 : evs.length + 5 = 1 + ((evs.length + 1) + 3) := by omega
  rw [e5, steps_add, steps_add]
  have : steps env 1 ⟨.L31, w, r, e, 0, ret, it, po, tr⟩ =
      ⟨.L32, w, r, e, 0, ret, it + 1, 0, tr⟩ := h1
  rw [this, h2]
  simp [steps, step, frameCalls]

/-- Leaving the loop: from the loop test with `quit != 0` the three teardown calls
are made and `main` returns 0. -/
theorem exit_run (env : Env) (s : State) (hpc : s.pc = .L31) (hquit : s.quit ≠ 0) :
    steps env 5 s =
      { s with pc := .done, ret := some 0,
               trace := s.trace ++ [.SDL_DestroyRenderer s.renderer,
                 .SDL_DestroyWindow s.window, .SDL_Quit] } := by
  rcases s with ⟨pc, w, r, e, q, ret, it, po, tr⟩
  simp only at hpc hquit
  subst hpc
  simp [steps, step, hquit]

/-- Several iterations: when the queues of the next frames are the finite lists
`frames` and none of them holds a quit event, the loop runs through all of them
and is back at the loop test with `quit == 0`. -/
theorem frames_run (env : Env) (frames : List (List SDL_Event)) :
    ∀ s : State, s.pc = .L31 → s.quit = 0 →
      (∀ i evs, frames[i]? = some evs →
        QueueIs env (s.iters + i + 1) evs ∧ hasQuit env evs = false) →
      ∃ k, (steps env k s).pc = .L31 ∧ (steps env k s).quit = 0 ∧
        (steps env k s).iters = s.iters + frames.length ∧
        (steps env k s).trace = s.trace ++ frames.flatMap (frameCalls s.renderer) ∧
        (steps env k s).window = s.window ∧ (steps env k s).renderer = s.renderer ∧
        (steps env k s).ret = s.ret := by
  induction frames with
  | nil =>
    intro s hpc hquit _
    exact ⟨0, by simp [steps, hpc, hquit]⟩
  | cons evs frames ih =>
    intro s hpc hquit hf
    obtain ⟨hq0, hnq⟩ := hf 0 evs (by simp)
    have h1 := frame_run env evs s hpc hquit (by simpa using hq0)
    obtain ⟨k, hk⟩ := ih (steps env (evs.length + 5) s) (by rw [h1]) (by rw [h1]; simp [hnq])
      (by
        intro i evs' hi
        have := hf (i + 1) evs' (by simpa using hi)
        rw [h1]
        simpa [Nat.add_assoc, Nat.add_comm 1] using this)
    refine ⟨(evs.length + 5) + k, ?_⟩
    rw [steps_add]
    obtain ⟨a, b, c, d, e, f, g⟩ := hk
    refine ⟨a, b, ?_, ?_, ?_, ?_, ?_⟩
    · rw [c, h1]; simp [Nat.add_assoc, Nat.add_comm 1]
    · rw [d, h1]; simp [List.flatMap_cons]
    · rw [e, h1]
    · rw [f, h1]
    · rw [g, h1]

/-! ## The body of the loop, iteration by iteration -/

/-- C7. At every point of every run, with `iters` the number of times the body of
the outer loop has been entered: the calls made by the loop so far are the start
of the calls of `iters` frames, a frame being successful polls, the poll that
reports nothing pending, then one `SDL_SetRenderDrawColor(renderer, 0, 0, 0, 255)`,
one `SDL_RenderClear(renderer)` and one `SDL_RenderPresent(renderer)`; outside the
body they are exactly the calls of `iters` frames.  Every clear comes right after
the call that sets the draw colour to opaque black.  The number of presents is the
number of iterations, less one while an iteration is under way.  And an iteration
that starts with the finite queue `evs` pending makes exactly the calls of the
frame of `evs` and is back at the loop test `evs.length + 5` statements later. -/
theorem loop_body_calls (env : Env) (n : Nat) :
    (∃ frames : List (List SDL_Event), frames.length = (main env n).iters ∧
      (main env n).trace.filter Call.inLoop <+: frames.flatMap (frameCalls env.renderer)) ∧
    ((main env n).pc ∉ [Pc.L32, Pc.L39, Pc.L40, Pc.L41] →
      ∃ frames : List (List SDL_Event), frames.length = (main env n).iters ∧
        (main env n).trace.filter Call.inLoop = frames.flatMap (frameCalls env.renderer)) ∧
    (∀ pre r post, (main env n).trace = pre ++ Call.SDL_RenderClear r :: post →
      ∃ pre', pre = pre' ++ [Call.SDL_SetRenderDrawColor r 0 0 0 255]) ∧
    ((main env n).pc ∉ [Pc.L32, Pc.L39, Pc.L40, Pc.L41] →
      (main env n).trace.countP Call.isPresent = (main env n).iters) ∧
    ((main env n).pc ∈ [Pc.L32, Pc.L39, Pc.L40, Pc.L41] →
      (main env n).trace.countP Call.isPresent + 1 = (main env n).iters) ∧
    (∀ evs : List SDL_Event, (main env n).pc = .L31 → (main env n).quit = 0 →
      QueueIs env ((main env n).iters + 1) evs →
      (main env (n + (evs.length + 5))).pc = .L31 ∧
      (main env (n + (evs.length + 5))).iters = (main env n).iters + 1 ∧
      (main env (n + (evs.length + 5))).trace =
        (main env n).trace ++ frameCalls env.renderer evs) := by
  obtain ⟨h1, h2, h3, h4, h5⟩ := loop_body_shape env n
  refine ⟨h1, h2, h3, h4, h5, ?_⟩
  intro evs hpc hquit hqueue
  have hf := frame_run env evs (main env n) hpc hquit hqueue
  rw [← main_add] at hf
  have hr : (main env n).renderer = env.renderer := by
    have := shapeInv_main env n
    revert this hpc
    generalize main env n = s
    rcases s with ⟨pc, w, r, e, q, ret, it, po, tr⟩
    rintro rfl h
    exact h.1
  rw [hf]
  exact ⟨rfl, rfl, by rw [hr]⟩

/-- C7, an iteration to which the last part applies: the first iteration against
`drainEnv`, whose first frame holds one event. -/
theorem loop_body_calls_witness :
    (main drainEnv 10).pc = .L31 ∧ (main drainEnv 10).iters = 1 ∧
    (main drainEnv 10).trace = (main drainEnv 4).trace ++
      [.SDL_PollEvent (some otherEvent), .SDL_PollEvent none,
       .SDL_SetRenderDrawColor 2 0 0 0 255, .SDL_RenderClear 2, .SDL_RenderPresent 2] :=
  (loop_body_calls drainEnv 4).2.2.2.2.2 [otherEvent] (by decide) (by decide)
    (by intro j hj
        simp only [List.length_cons, List.length_nil] at hj
        interval_cases j <;> rfl)

/-- The whole run when the checks of lines 6, 13 and 21 pass: if the queues of the
first frames are the finite lists `frames`, none with a quit event, and the queue
of the next frame is the finite list `evs`, with a quit event, then `main` returns
0 after `frames.length + 1` iterations, and its calls are the three set-up calls,
every frame in full, and the teardown. -/
theorem run_until_quit (env : Env) (frames : List (List SDL_Event)) (evs : List SDL_Event)
    (hi : env.initResult = false) (hw : env.window ≠ 0) (hr : env.renderer ≠ 0)
    (hframes : ∀ i evs', frames[i]? = some evs' →
      QueueIs env (i + 1) evs' ∧ hasQuit env evs' = false)
    (hevs : QueueIs env (frames.length + 1) evs) (hq : hasQuit env evs = true) :
    ∃ n, (main env n).pc = .done ∧ (main env n).ret = some 0 ∧
      (main env n).iters = frames.length + 1 ∧
      (main env n).trace = setupTrace env ++ frames.flatMap (frameCalls env.renderer) ++
        frameCalls env.renderer evs ++ teardownCalls env := by
  have h4 := main_at_loop env hi hw hr
  obtain ⟨k, hk1, hk2, hk3, hk4, hk5, hk6, hk7⟩ := frames_run env frames (main env 4)
    (by rw [h4]) (by rw [h4]) (by rw [h4]; simpa using hframes)
  rw [← main_add] at hk1 hk2 hk3 hk4 hk5 hk6 hk7
  rw [h4] at hk3 hk4 hk5 hk6 hk7
  simp only [Nat.zero_add] at hk3
  have hf := frame_run env evs (main env (4 + k)) hk1 hk2 (by rw [hk3]; exact hevs)
  rw [← main_add] at hf
  have hx := exit_run env (main env (4 + k + (evs.length + 5))) (by rw [hf])
    (by rw [hf]; simp [hq])
  rw [← main_add] at hx
  refine ⟨4 + k + (evs.length + 5) + 5, ?_, ?_, ?_, ?_⟩
  · rw [hx]
  · rw [hx]
  · rw [hx, hf]; simp [hk3]
  · rw [hx, hf]; simp [hk4, hk5, hk6, teardownCalls]

/-! ## The quit event does not cut the frame short -/

/-- C9, the claim as stated fails: in `endlessQuitEnv` the run reaches the event
loop, the very first event polled is the quit event, and no frame is ever
presented, because `SDL_PollEvent` never reports that nothing is pending. -/
theorem endless_queue_never_presents :
    ReachesLoop endlessQuitEnv ∧
    (main endlessQuitEnv 6).trace.getLast? = some (Call.SDL_PollEvent (some quitEvent)) ∧
    ¬ ∃ n r, Call.SDL_RenderPresent r ∈ (main endlessQuitEnv n).trace := by
  refine ⟨⟨4, by decide⟩, by decide, ?_⟩
  rintro ⟨n, r, hmem⟩
  have hinv := main_induction endlessQuitEnv
    (fun s : State => (s.pc = .L6 ∨ s.pc = .L12 ∨ s.pc = .L20 ∨ s.pc = .L30 ∨
      (s.pc = .L31 ∧ s.quit = 0) ∨ s.pc = .L32) ∧ s.trace.any Call.isPresent = false)
    (by simp [State.init])
    (by
      intro s hs
      rcases s with ⟨pc, w, r, e, q, ret, it, po, tr⟩
      obtain ⟨hpc, htr⟩ := hs
      simp only at hpc htr
      rcases hpc with rfl | rfl | rfl | rfl | ⟨rfl, rfl⟩ | rfl <;>
        simp [step, endlessQuitEnv, htr, Call.isPresent])
  have := List.any_eq_false.mp (hinv n).2 _ hmem
  simp [Call.isPresent] at this

/-- C9 (amended). In a run that reaches the event loop: if the queues of the frames
so far are finite and hold no quit event, and the queue of the current frame is the
finite list `before ++ q :: after` with `q` a quit event, then every event of the
frame is polled, those of `after` included, the frame is set to black, cleared and
presented once more, and only then come the teardown and `return 0`.  And whenever
the queue of the first frame is finite, at least one frame is presented. -/
theorem quit_does_not_cut_frame (env : Env) (hloop : ReachesLoop env) :
    (∀ (frames : List (List SDL_Event)) (before after : List SDL_Event) (q : SDL_Event),
      (∀ i evs, frames[i]? = some evs → QueueIs env (i + 1) evs ∧ hasQuit env evs = false) →
      QueueIs env (frames.length + 1) (before ++ q :: after) →
      q.type = env.SDL_EVENT_QUIT →
      ∃ n, (main env n).ret = some 0 ∧
        (main env n).trace = setupTrace env ++ frames.flatMap (frameCalls env.renderer) ++
          frameCalls env.renderer (before ++ q :: after) ++ teardownCalls env) ∧
    (∀ evs : List SDL_Event, QueueIs env 1 evs →
      ∃ n, Call.SDL_RenderPresent env.renderer ∈ (main env n).trace) := by
  obtain ⟨hi, hw, hr⟩ := (reachesLoop_iff env).mp hloop
  constructor
  · intro frames before after q hframes hevs hq
    obtain ⟨n, -, h1, -, h2⟩ := run_until_quit env frames (before ++ q :: after) hi hw hr
      hframes hevs (by simp [hasQuit, hq])
    exact ⟨n, h1, h2⟩
  · intro evs hevs
    have h4 := main_at_loop env hi hw hr
    have hf := frame_run env evs (main env 4) (by rw [h4]) (by rw [h4])
      (by rw [h4]; exact hevs)
    rw [← main_add] at hf
    exact ⟨4 + (evs.length + 5), by rw [hf, h4]; simp [frameCalls]⟩

/-- C9, a run to which the amended claim applies: in `drainEnv` the second frame holds
a quit event followed by another event. -/
theorem quit_does_not_cut_frame_witness :
    ReachesLoop drainEnv ∧
    (∃ n, (main drainEnv n).ret = some 0 ∧
      (main drainEnv n).trace = setupTrace drainEnv ++
        [[otherEvent]].flatMap (frameCalls drainEnv.renderer) ++
        frameCalls drainEnv.renderer ([] ++ quitEvent :: [otherEvent]) ++
        teardownCalls drainEnv) ∧
    (∃ n, Call.SDL_RenderPresent drainEnv.renderer ∈ (main drainEnv n).trace) :=
  have hloop : ReachesLoop drainEnv := ⟨4, by decide⟩
  ⟨hloop,
   (quit_does_not_cut_frame drainEnv hloop).1 [[otherEvent]] [] [otherEvent] quitEvent
     (by
       intro i evs h
       cases i with
       | zero =>
         simp only [List.getElem?_cons_zero, Option.some.injEq] at h
         subst h
         exact ⟨by intro j hj; simp only [List.length_cons, List.length_nil] at hj
                   interval_cases j <;> rfl, by decide⟩
       | succ i => simp at h)
     (by intro j hj; simp only [List.nil_append, List.length_cons, List.length_nil] at hj
         interval_cases j <;> rfl)
     (by decide),
   (quit_does_not_cut_frame drainEnv hloop).2 [otherEvent]
     (by intro j hj; simp only [List.length_cons, List.length_nil] at hj
         interval_cases j <;> rfl)⟩

/-! ## Events other than the quit event -/

/-- When `main` has returned after `a` statements, every state of the run is one of
the first `a + 1`. -/
theorem main_eq_of_done (env : Env) (a : Nat) (h : (main env a).pc = .done) (n : Nat) :
    ∃ m, m ≤ a ∧ main env n = main env m := by
  by_cases hn : n ≤ a
  · exact ⟨n, hn, rfl⟩
  · exact ⟨a, le_refl _, main_done_stable env a n h (by omega)⟩

/-- When the loop is reached and no event delivered is a quit event, `quit` stays 0
and `main` never returns. -/
theorem loop_never_exits_without_quit (env : Env) (hloop : ReachesLoop env)
    (hno : ∀ k j ev, env.pending k j = some ev → ev.type ≠ env.SDL_EVENT_QUIT) (n : Nat) :
    (main env n).ret = none ∧ (main env n).quit = 0 ∧ (main env n).pc ≠ .done := by
  obtain ⟨hi, hw, hr⟩ := (reachesLoop_iff env).mp hloop
  have hinv := main_induction env
    (fun s : State => s.ret = none ∧ s.quit = 0 ∧
      (s.pc = .L6 ∨ s.pc = .L12 ∨ s.pc = .L20 ∨ s.pc = .L30 ∨ s.pc = .L31 ∨ s.pc = .L32 ∨
       s.pc = .L39 ∨ s.pc = .L40 ∨ s.pc = .L41))
    (by simp [State.init])
    (by
      intro s hs
      rcases s with ⟨pc, w, r, e, q, ret, it, po, tr⟩
      obtain ⟨h1, h2, hpc⟩ := hs
      simp only at h1 h2 hpc
      subst h1 h2
      rcases hpc with rfl | rfl | rfl | rfl | rfl | rfl | rfl | rfl | rfl
      case inr.inr.inr.inr.inr.inl =>
        cases hp : env.pending it po with
        | none => simp [step, hp]
        | some ev => simp [step, hp, hno it po ev hp]
      all_goals simp [step, hi, hw, hr])
    n
  obtain ⟨h1, h2, h3⟩ := hinv
  refine ⟨h1, h2, ?_⟩
  intro hd
  rw [hd] at h3
  simp at h3

/-- C1. In `sampleEnv true 1 2` the three initialisation calls succeed (`SDL_Init`
returns `true`, the window and the renderer would be non-`NULL`) and the first
frame holds a quit event; `main` returns 1 after three statements and never
returns 0. -/
theorem init_success_returns_one :
    (sampleEnv true 1 2).initResult = true ∧ (sampleEnv true 1 2).window ≠ 0 ∧
    (sampleEnv true 1 2).renderer ≠ 0 ∧ FrameHasQuit (sampleEnv true 1 2) 1 ∧
    (main (sampleEnv true 1 2) 3).ret = some 1 ∧
    ¬ ∃ n, (main (sampleEnv true 1 2) n).ret = some 0 := by
  refine ⟨rfl, by decide, by decide, ⟨0, quitEvent, by simp, rfl, rfl⟩, by decide, ?_⟩
  rintro ⟨n, hn⟩
  obtain ⟨m, hm, heq⟩ := main_eq_of_done (sampleEnv true 1 2) 3 (by decide) n
  rw [heq] at hn
  revert hn
  interval_cases m <;> decide

/-- C2. In `sampleEnv false 1 2` the call of `SDL_Init` fails (returns `false`);
`main` goes on to create the window and the renderer, enters the event loop,
polls, renders, tears down and returns 0. -/
theorem init_failure_enters_loop :
    (sampleEnv false 1 2).initResult = false ∧
    (main (sampleEnv false 1 2) 15).ret = some 0 ∧
    (main (sampleEnv false 1 2) 15).trace =
      [.SDL_Init 32 false, .SDL_CreateWindow windowTitle 800 600 0 1,
       .SDL_CreateRenderer 1 none 2,
       .SDL_PollEvent (some quitEvent), .SDL_PollEvent none,
       .SDL_SetRenderDrawColor 2 0 0 0 255, .SDL_RenderClear 2, .SDL_RenderPresent 2,
       .SDL_DestroyRenderer 2, .SDL_DestroyWindow 1, .SDL_Quit] := by
  refine ⟨rfl, by decide, by decide⟩

/-- C3. In `sampleEnv true 1 2` the library is initialised (`SDL_Init` returns `true`)
and `main` returns without ever calling `SDL_Quit`; in `sampleEnv false 0 2` the
initialisation fails and `SDL_Quit` is called all the same. -/
theorem init_success_never_quits_library :
    (main (sampleEnv true 1 2) 3).pc = .done ∧
    (main (sampleEnv true 1 2) 3).trace =
      [.SDL_Init 32 true, .SDL_GetError "boom", .printf "SDL_Init Error: boom\n"] ∧
    (¬ ∃ n, Call.SDL_Quit ∈ (main (sampleEnv true 1 2) n).trace) ∧
    (main (sampleEnv false 0 2) 5).pc = .done ∧
    (main (sampleEnv false 0 2) 5).trace =
      [.SDL_Init 32 false, .SDL_CreateWindow windowTitle 800 600 0 0,
       .SDL_GetError "boom", .printf "SDL_CreateWindow Error: boom\n", .SDL_Quit] := by
  refine ⟨by decide, by decide, ?_, by decide, by decide⟩
  rintro ⟨n, hn⟩
  obtain ⟨m, hm, heq⟩ := main_eq_of_done (sampleEnv true 1 2) 3 (by decide) n
  rw [heq] at hn
  revert hn
  interval_cases m <;> decide

/-- C6. In `sampleEnv true 1 2` initialisation succeeds and the queue of frame 1 is
the finite list `[quitEvent]`, so that `N = 1`; the body of the loop is never
entered and `main` returns 1.  In `quietEnv true 1 2` initialisation succeeds and
no quit event is ever delivered; after three statements `main` has returned and is
not in the loop. -/
theorem init_success_skips_loop :
    QueueIs (sampleEnv true 1 2) 1 [quitEvent] ∧
    hasQuit (sampleEnv true 1 2) [quitEvent] = true ∧
    (main (sampleEnv true 1 2) 3).ret = some 1 ∧
    (¬ ∃ n, (main (sampleEnv true 1 2) n).iters ≠ 0) ∧
    (quietEnv true 1 2).initResult = true ∧
    (main (quietEnv true 1 2) 3).pc = .done ∧
    (main (quietEnv true 1 2) 3).ret = some 1 := by
  refine ⟨?_, by decide, by decide, ?_, rfl, by decide, by decide⟩
  · intro j hj
    simp only [List.length_cons, List.length_nil] at hj
    interval_cases j <;> rfl
  · rintro ⟨n, hn⟩
    obtain ⟨m, hm, heq⟩ := main_eq_of_done (sampleEnv true 1 2) 3 (by decide) n
    rw [heq] at hn
    revert hn
    interval_cases m <;> decide

/-- C4. In `sampleEnv false 1 2` the call of `SDL_Init` fails (returns `false`): no
line is ever printed and `main` returns 0, so the failure point of `SDL_Init`
prints no diagnostic and does not return a non-zero status.  In
`sampleEnv true 1 2` no step fails, and the line `SDL_Init Error: boom` is
printed.  The two other failure points print the line that names their step:
`SDL_CreateWindow Error: boom` when the window is `NULL`,
`SDL_CreateRenderer Error: boom` when the renderer is `NULL`. -/
theorem init_failure_prints_nothing :
    (sampleEnv false 1 2).initResult = false ∧
    (main (sampleEnv false 1 2) 15).ret = some 0 ∧
    (¬ ∃ n, (main (sampleEnv false 1 2) n).trace.any Call.isDiagnostic = true) ∧
    (sampleEnv true 1 2).initResult = true ∧
    (main (sampleEnv true 1 2) 3).ret = some 1 ∧
    (main (sampleEnv true 1 2) 3).trace.filter Call.isDiagnostic =
      [.printf "SDL_Init Error: boom\n"] ∧
    (main (sampleEnv false 0 2) 5).ret = some 1 ∧
    (main (sampleEnv false 0 2) 5).trace.filter Call.isDiagnostic =
      [.printf "SDL_CreateWindow Error: boom\n"] ∧
    (main (sampleEnv false 1 0) 7).ret = some 1 ∧
    (main (sampleEnv false 1 0) 7).trace.filter Call.isDiagnostic =
      [.printf "SDL_CreateRenderer Error: boom\n"] := by
  refine ⟨rfl, by decide, ?_, rfl, by decide, by decide, by decide, by decide, by decide,
    by decide⟩
  rintro ⟨n, hn⟩
  obtain ⟨m, hm, heq⟩ := main_eq_of_done (sampleEnv false 1 2) 15 (by decide) n
  rw [heq] at hn
  revert hn
  interval_cases m <;> decide

/-- C8. In `sampleEnv true 1 2` all three initialisation steps succeed; the whole run
is `SDL_Init`, `SDL_GetError`, `printf`: three calls, no window, no renderer, no
frame, no teardown. -/
theorem init_success_trace :
    (sampleEnv true 1 2).initResult = true ∧
    (main (sampleEnv true 1 2) 3).pc = .done ∧
    (main (sampleEnv true 1 2) 3).trace = initFailTrace (sampleEnv true 1 2) ∧
    ¬ ∃ n, 3 < (main (sampleEnv true 1 2) n).trace.length := by
  refine ⟨rfl, by decide, by decide, ?_⟩
  rintro ⟨n, hn⟩
  obtain ⟨m, hm, heq⟩ := main_eq_of_done (sampleEnv true 1 2) 3 (by decide) n
  rw [heq] at hn
  revert hn
  interval_cases m <;> decide

end Astar
